import Mathlib

/-!
Verification of `cress::Defer` (src/include/cress/defer.hpp).

The header defines a single RAII scope guard:

  template<class Callable>
  struct Defer {
  private:
    Callable m_callable;
  public:
    Defer(Defer const&) = delete;
    Defer(Defer&&) noexcept = delete;
    Defer& operator=(Defer const&) = delete;
    Defer& operator=(Defer&&) noexcept = delete;
    ~Defer() noexcept { m_callable(); }
    Defer() : m_callable() {}
    explicit Defer(Callable callable) : m_callable(std::move(callable)) {}
  };

We embed the guard as a structure holding one callable over a program
state `σ`, and give an operational semantics for block-structured scopes
(the host language's scope-teardown collaborator, §6 of the design):
on every exit from a block — normal fall-through, early return, or
exception unwind — the destructors of the guards declared in that block
run in reverse declaration order.  Because `~Defer` is `noexcept`, an
exception raised by the held callable during destruction does not
propagate: the program terminates (`std::terminate`).

Static, type-level facts of the class (deleted copy/move members, the
`explicit` constructor, which `Callable` shapes instantiate) are
embedded as small tables transcribed from the declarations.
-/

namespace CressDefer

/-- Result of invoking a C++ callable on program state `σ`: either it
returns normally with the updated state, or it raises an exception
carrying code `e`, leaving state `s`. -/
inductive ActRes (σ : Type) where
  | ok (s : σ)
  | exn (e : Nat) (s : σ)
deriving DecidableEq, Repr

/-- Shallow embedding of `cress::Defer<Callable>` (defer.hpp lines 42–55):
the guard holds exactly one callable, the private member `m_callable`,
fixed at construction. -/
structure Defer (σ : Type) where
  m_callable : σ → ActRes σ

/-- Outcome of running the destructor `~Defer() noexcept { m_callable(); }`
(line 52): either the callable completed normally, or it raised — and since
the destructor is `noexcept`, the exception does not propagate:
`std::terminate` is called (`terminated`).  There is no constructor for a
propagated exception: no error can escape the destructor. -/
inductive DtorRes (σ : Type) where
  | ok (s : σ)
  | terminated (s : σ)
deriving DecidableEq, Repr

/-- `~Defer() noexcept { m_callable(); }` (line 52): invoke the held
callable once; a raised exception becomes `std::terminate`. -/
def Defer.dtor {σ : Type} (d : Defer σ) (s : σ) : DtorRes σ :=
  match d.m_callable s with
  | ActRes.ok s' => DtorRes.ok s'
  | ActRes.exn _ s' => DtorRes.terminated s'

/-- `explicit Defer(Callable callable) : m_callable(std::move(callable)) {}`
(line 54): store the given callable. -/
def Defer.ctor {σ : Type} (c : σ → ActRes σ) : Defer σ := ⟨c⟩

/-- A candidate `Callable` type, as far as the default constructor
`Defer() : m_callable() {}` (line 53) is concerned: `valueInit` is the
behaviour of a value-initialized callable of that type. -/
structure CallableTy (σ : Type) where
  valueInit : σ → ActRes σ

/-- `Defer() : m_callable() {}` (line 53): value-initialize the held
callable.  The stored action is whatever the `Callable` type's
value-initialized object does when invoked. -/
def Defer.defaultCtor {σ : Type} (κ : CallableTy σ) : Defer σ :=
  ⟨κ.valueInit⟩

/-- Run the destructors of a list of live guards, most recently declared
first (C++ destroys automatic objects in reverse declaration order).
`std::terminate` stops execution at once: no later destructor runs. -/
def runDtors {σ : Type} : List (Defer σ) → σ → DtorRes σ
  | [], s => DtorRes.ok s
  | d :: ds, s =>
    match d.dtor s with
    | DtorRes.ok s' => runDtors ds s'
    | DtorRes.terminated s' => DtorRes.terminated s'

/-- Statements of a block-structured host program using the guard:
ordinary state updates, declaration of a `cress::Defer` guard, sequencing,
nested blocks, early `return`, and `throw`. -/
inductive Stmt (σ : Type) where
  | skip
  | act (f : σ → σ)
  | declDefer (d : Defer σ)
  | seq (a b : Stmt σ)
  | block (body : Stmt σ)
  | ret
  | throwErr (e : Nat)

/-- How control leaves a statement: normal completion, early return,
an in-flight exception `e`, or `std::terminate`. -/
inductive Control where
  | normal
  | ret
  | thrown (e : Nat)
  | terminated
deriving DecidableEq, Repr

/-- Execution of a statement given the live guards of the current block
(most recently declared first) and the state.  Returns the control
outcome, the final state, and the current block's live guards.
On every exit from a `block` — normal, return, or exception unwind —
the block's guards are destroyed in reverse declaration order; after
`std::terminate` nothing further runs. -/
def exec {σ : Type} : Stmt σ → List (Defer σ) → σ → Control × σ × List (Defer σ)
  | Stmt.skip, gs, s => (Control.normal, s, gs)
  | Stmt.act f, gs, s => (Control.normal, f s, gs)
  | Stmt.declDefer d, gs, s => (Control.normal, s, d :: gs)
  | Stmt.seq a b, gs, s =>
    match exec a gs s with
    | (Control.normal, s', gs') => exec b gs' s'
    | r => r
  | Stmt.block body, gs, s =>
    match exec body [] s with
    | (Control.terminated, s', _) => (Control.terminated, s', gs)
    | (c, s', gs') =>
      match runDtors gs' s' with
      | DtorRes.ok s'' => (c, s'', gs)
      | DtorRes.terminated s'' => (Control.terminated, s'', gs)
  | Stmt.ret, gs, s => (Control.ret, s, gs)
  | Stmt.throwErr e, gs, s => (Control.thrown e, s, gs)

/-- Run a whole program body as one top-level scope. -/
def run {σ : Type} (p : Stmt σ) (s : σ) : Control × σ :=
  ((exec (Stmt.block p) [] s).1, (exec (Stmt.block p) [] s).2.1)

/-- A side-effect-counting guard action: increments a counter. -/
def incGuard : Defer Nat :=
  Defer.ctor (fun n => ActRes.ok (n + 1))

/-- A guard whose action appends its identifier to a shared trace. -/
def appendGuard (i : Nat) : Defer (List Nat) :=
  Defer.ctor (fun t => ActRes.ok (t ++ [i]))

/-- A guard whose action raises exception `e` when invoked. -/
def raiseGuard (σ : Type) (e : Nat) : Defer σ :=
  Defer.ctor (fun s => ActRes.exn e s)

/-- Declare guards `appendGuard i` for the identifiers `ids`, in order,
in the current scope. -/
def declareAll : List Nat → Stmt (List Nat)
  | [] => Stmt.skip
  | i :: is => Stmt.seq (Stmt.declDefer (appendGuard i)) (declareAll is)

/-- Nested-scope program of depth `d + 1`: the outermost level declares
guard `d`, then opens an inner block built the same way, down to guard `0`
in the innermost block. -/
def nestProg : Nat → Stmt (List Nat)
  | 0 => Stmt.declDefer (appendGuard 0)
  | d + 1 => Stmt.seq (Stmt.declDefer (appendGuard (d + 1)))
      (Stmt.block (nestProg d))

/-- The special member functions of `cress::Defer`. -/
inductive SpecialMember where
  | defaultCtor
  | callableCtor
  | copyCtor
  | moveCtor
  | copyAssign
  | moveAssign
  | dtor
deriving DecidableEq

/-- Which special members are declared `= delete` (defer.hpp lines 48–51):
copy constructor, move constructor, copy assignment and move assignment.
Selecting a deleted member in C++ makes the program ill-formed, so every
attempt to copy or move a guard is rejected at compile time. -/
def deferDeleted : SpecialMember → Bool
  | SpecialMember.copyCtor => true
  | SpecialMember.moveCtor => true
  | SpecialMember.copyAssign => true
  | SpecialMember.moveAssign => true
  | _ => false

/-- Shape of a candidate `Callable` template argument, as far as the
instantiation of `Defer<Callable>` is concerned: whether objects of the
type can be called with zero arguments, and whether such a call yields a
value. -/
structure ActionTy where
  callableZeroArgs : Bool
  yieldsValue : Bool
deriving DecidableEq

/-- Whether the destructor body `m_callable();` (line 52) is well-formed
for callables of shape `τ`: the object must be callable with zero
arguments.  The call is an expression statement, so a yielded value is
simply discarded — it imposes no constraint. -/
def dtorBodyWellFormed (τ : ActionTy) : Bool :=
  τ.callableZeroArgs

/-- Whether the constructor body `: m_callable(std::move(callable)) {}`
(line 54) constrains the shape `τ`: it moves the callable into the member
and never invokes it, so it imposes no arity or result constraint. -/
def ctorBodyConstrains : ActionTy → Bool :=
  fun _ => false

/-- `Defer<Callable>` (with an object of it constructed and hence
destroyed) compiles iff every instantiated member is well-formed: the
only shape constraint comes from the destructor's call `m_callable();`. -/
def deferInstantiates (τ : ActionTy) : Bool :=
  dtorBodyWellFormed τ && !ctorBodyConstrains τ

/-- A `Callable` type whose value-initialized object increments a counter
when invoked (e.g. a default-constructible function object with a
side-effecting `operator()`). -/
def incCallableTy : CallableTy Nat :=
  ⟨fun n => ActRes.ok (n + 1)⟩

/-- A `Callable` type whose value-initialized object is a no-op. -/
def noopCallableTy (σ : Type) : CallableTy σ :=
  ⟨fun s => ActRes.ok s⟩

/-- The two C++ initialization forms relevant to an `explicit`
constructor. -/
inductive InitKind where
  | direct
  | copyInit
deriving DecidableEq

/-- Usability of `explicit Defer(Callable)` (line 54) under C++
initialization rules: an `explicit` constructor is considered for
direct-initialization only; copy-initialization and implicit conversion
from a callable do not consider it, so they are rejected. -/
def ctorFromCallableUsable : InitKind → Bool
  | InitKind.direct => true
  | InitKind.copyInit => false

/-! ## Supporting lemmas -/

/-- Destroying the guards `appendGuard i` for `i ∈ ids` appends exactly
the list `ids` to the trace, in list order: each listed guard's action
runs exactly once, head (most recently declared) first. -/
theorem runDtors_appendGuards (ids : List Nat) (t : List Nat) :
    runDtors (List.map appendGuard ids) t = DtorRes.ok (t ++ ids) := by
  induction ids generalizing t with
  | nil => simp [runDtors]
  | cons i is ih =>
    simp [runDtors, appendGuard, Defer.ctor, Defer.dtor, ih]

/-- A nested block hands back the enclosing scope's live-guard list
unchanged: the block's own guards are gone (fired or terminated),
and the enclosing scope's guards are untouched. -/
theorem exec_block_gs {σ : Type} (body : Stmt σ) (gs : List (Defer σ)) (s : σ) :
    (exec (Stmt.block body) gs s).2.2 = gs := by
  show (match exec body [] s with
    | (Control.terminated, s', _) => (Control.terminated, s', gs)
    | (c, s', gs') =>
      match runDtors gs' s' with
      | DtorRes.ok s'' => (c, s'', gs)
      | DtorRes.terminated s'' => (Control.terminated, s'', gs)).2.2 = gs
  rcases exec body [] s with ⟨c, s', gs'⟩
  cases c <;> simp <;> rcases runDtors gs' s' with s'' | s'' <;> simp

/-- Within a scope, executing any statement only adds to the live-guard
list: no statement can remove (disarm, cancel) a guard already declared
in the scope. -/
theorem exec_gs_extends {σ : Type} (st : Stmt σ) (gs : List (Defer σ)) (s : σ) :
    ∃ new, (exec st gs s).2.2 = new ++ gs := by
  induction st generalizing gs s with
  | skip => exact ⟨[], rfl⟩
  | act f => exact ⟨[], rfl⟩
  | declDefer d => exact ⟨[d], rfl⟩
  | seq a b iha ihb =>
    obtain ⟨n1, h1⟩ := iha gs s
    rcases ha : exec a gs s with ⟨c, s', gs'⟩
    rw [ha] at h1
    simp only at h1
    cases c with
    | normal =>
      subst h1
      obtain ⟨n2, h2⟩ := ihb (n1 ++ gs) s'
      exact ⟨n2 ++ n1, by simp [exec, ha, h2, List.append_assoc]⟩
    | ret => exact ⟨n1, by simp [exec, ha, h1]⟩
    | thrown e => exact ⟨n1, by simp [exec, ha, h1]⟩
    | terminated => exact ⟨n1, by simp [exec, ha, h1]⟩
  | block body ih => exact ⟨[], by simp [exec_block_gs]⟩
  | ret => exact ⟨[], rfl⟩
  | throwErr e => exact ⟨[], rfl⟩

/-- Executing `declareAll ids` declares the guards in order: afterwards
the live-guard list holds them in reverse declaration order (most recent
first) on top of the enclosing guards, the state untouched. -/
theorem exec_declareAll (ids : List Nat) (gs : List (Defer (List Nat)))
    (t : List Nat) :
    exec (declareAll ids) gs t
      = (Control.normal, t, List.map appendGuard ids.reverse ++ gs) := by
  induction ids generalizing gs with
  | nil => simp [declareAll, exec]
  | cons i is ih =>
    simp [declareAll, exec, ih]

/-- Executing the depth-`d + 1` nested program: all guards of the inner
blocks (identifiers `0, …, d - 1`, deepest first) have already fired, in
inner-to-outer order, and the current level's guard `d` is still armed. -/
theorem exec_nestProg (d : Nat) (gs : List (Defer (List Nat))) (t : List Nat) :
    exec (nestProg d) gs t
      = (Control.normal, t ++ List.range d, appendGuard d :: gs) := by
  induction d generalizing gs t with
  | zero => simp [nestProg, exec]
  | succ d ih =>
    simp [nestProg, exec, ih, runDtors, appendGuard, Defer.ctor, Defer.dtor,
      List.range_succ]

/-- `runDtors_appendGuards`, restated with the guard list in
reverse-of-map form. -/
theorem runDtors_appendGuards_rev (ids t : List Nat) :
    runDtors (List.map appendGuard ids).reverse t
      = DtorRes.ok (t ++ ids.reverse) := by
  rw [← List.map_reverse, runDtors_appendGuards]

/-- Running a scope that declares guards for `ids` in order leaves the
trace extended by `ids.reverse`: last declared, first invoked. -/
theorem run_declareAll (ids t : List Nat) :
    run (declareAll ids) t = (Control.normal, t ++ ids.reverse) := by
  simp [run, exec, exec_declareAll, runDtors_appendGuards_rev]

/-! ## Claims -/

/-- Claim C1: a guard constructed with an action has the action invoked
exactly once when control leaves the enclosing scope, under each exit
mode — normal fall-through, early return, and exception unwind.  With an
arbitrary action `f` the final state is exactly `f s` (one application),
and with the side-effect-counting guard the counter ends at exactly
`n + 1` in all three cases. -/
theorem C1_exactly_once (σ : Type) (f : σ → σ) (s : σ) (n e : Nat) :
    run (Stmt.seq (Stmt.declDefer (Defer.ctor (fun x => ActRes.ok (f x))))
        Stmt.skip) s = (Control.normal, f s)
    ∧ run (Stmt.seq (Stmt.declDefer (Defer.ctor (fun x => ActRes.ok (f x))))
        Stmt.ret) s = (Control.ret, f s)
    ∧ run (Stmt.seq (Stmt.declDefer (Defer.ctor (fun x => ActRes.ok (f x))))
        (Stmt.throwErr e)) s = (Control.thrown e, f s)
    ∧ run (Stmt.seq (Stmt.declDefer incGuard) Stmt.skip) n
        = (Control.normal, n + 1)
    ∧ run (Stmt.seq (Stmt.declDefer incGuard) Stmt.ret) n
        = (Control.ret, n + 1)
    ∧ run (Stmt.seq (Stmt.declDefer incGuard) (Stmt.throwErr e)) n
        = (Control.thrown e, n + 1) :=
  ⟨rfl, rfl, rfl, rfl, rfl, rfl⟩

/-- Claim C2: the two-state lifecycle.  (a) Construction does not invoke
the action: declaring a guard leaves the state unchanged and adds the
guard, armed, to the live list.  (b) No statement can disarm or cancel a
live guard: the live-guard list of a scope only grows.  (c) After a
block exits, its guards are no longer live (they cannot re-fire).
(d) At end of scope each live guard's action runs exactly once: the trace
gains each identifier exactly once. -/
theorem C2_lifecycle (σ : Type) (d : Defer σ) (gs : List (Defer σ)) (s : σ)
    (ids t : List Nat) :
    exec (Stmt.declDefer d) gs s = (Control.normal, s, d :: gs)
    ∧ (∀ st : Stmt σ, ∃ new, (exec st gs s).2.2 = new ++ gs)
    ∧ (∀ body : Stmt σ, (exec (Stmt.block body) gs s).2.2 = gs)
    ∧ runDtors (List.map appendGuard ids) t = DtorRes.ok (t ++ ids) :=
  ⟨rfl, fun st => exec_gs_extends st gs s,
    fun body => exec_block_gs body gs s,
    runDtors_appendGuards ids t⟩

/-- Claim C3: sibling guards fire in strictly the reverse of declaration
order.  Guards G1, G2, G3 declared in that order leave the trace
`[i3, i2, i1]`; in general declaring guards for `ids` in order leaves the
trace `ids.reverse`. -/
theorem C3_reverse_order (i1 i2 i3 : Nat) (ids t : List Nat) :
    run (declareAll [i1, i2, i3]) t = (Control.normal, t ++ [i3, i2, i1])
    ∧ run (declareAll ids) t = (Control.normal, t ++ ids.reverse) := by
  refine ⟨?_, run_declareAll ids t⟩
  have h := run_declareAll [i1, i2, i3] t
  simpa using h

/-- Claim C4: nested-scope ordering at every depth.  In the depth-`d + 1`
nested program (guard `k` declared at the block `k` levels out from the
innermost), the final trace is `[0, 1, …, d]`: every inner block's guard
completes its invocation before any guard of an enclosing block begins. -/
theorem C4_nested_ordering (d : Nat) (t : List Nat) :
    run (nestProg d) t = (Control.normal, t ++ List.range (d + 1)) := by
  simp [run, exec, exec_nestProg, runDtors, appendGuard, Defer.ctor,
    Defer.dtor, List.range_succ]

/-- Claim C5: copy construction, move construction, copy assignment and
move assignment of a guard are all declared deleted (lines 48–51), hence
statically rejected; consequently each declared cleanup obligation is
held by exactly one guard and runs exactly once at scope end (no
duplication by aliasing). -/
theorem C5_no_copy_no_move (ids t : List Nat) :
    deferDeleted SpecialMember.copyCtor = true
    ∧ deferDeleted SpecialMember.moveCtor = true
    ∧ deferDeleted SpecialMember.copyAssign = true
    ∧ deferDeleted SpecialMember.moveAssign = true
    ∧ runDtors (List.map appendGuard ids) t = DtorRes.ok (t ++ ids) :=
  ⟨rfl, rfl, rfl, rfl, runDtors_appendGuards ids t⟩

/-- Claim C6, counterexample: a default-constructed guard does NOT
produce "no observable side effect" for every default-constructible
`Callable` type.  For a `Callable` type whose value-initialized object
increments a counter when invoked, the guard's destruction changes the
state from `0` to `1`. -/
theorem C6_default_cex :
    run (Stmt.declDefer (Defer.defaultCtor incCallableTy)) 0
        = (Control.normal, 1)
    ∧ run (Stmt.declDefer (Defer.defaultCtor incCallableTy)) 0
        ≠ (Control.normal, 0) :=
  ⟨rfl, by decide⟩

/-- Claim C6, amended: a default-constructed guard invokes the
value-initialized callable of its `Callable` type at scope exit; whenever
that value-initialized callable is a no-op, destruction produces no
observable side effect. -/
theorem C6_default_noop (σ : Type) (κ : CallableTy σ) (s : σ)
    (h : ∀ x, κ.valueInit x = ActRes.ok x) :
    (Defer.defaultCtor κ).m_callable = κ.valueInit
    ∧ run (Stmt.declDefer (Defer.defaultCtor κ)) s = (Control.normal, s) := by
  refine ⟨rfl, ?_⟩
  simp [run, exec, runDtors, Defer.dtor, Defer.defaultCtor, h]

/-- Witness for C6's amended theorem at a concrete no-op `Callable`
type and initial state. -/
theorem C6_default_noop_witness :
    (Defer.defaultCtor (noopCallableTy Nat)).m_callable
        = (noopCallableTy Nat).valueInit
    ∧ run (Stmt.declDefer (Defer.defaultCtor (noopCallableTy Nat))) 0
        = (Control.normal, 0) :=
  C6_default_noop Nat (noopCallableTy Nat) 0 (fun _ => rfl)

/-- Claim C7, counterexample: instantiation is NOT rejected for every
action type that fails to be a zero-argument, no-result callable.  A
zero-argument callable that yields a value (e.g. a lambda returning
`int`) instantiates `Defer` successfully: the destructor's expression
statement `m_callable();` discards the result. -/
theorem C7_ctor_shape_cex :
    deferInstantiates ⟨true, true⟩ = true
    ∧ ActionTy.yieldsValue ⟨true, true⟩ = true :=
  ⟨rfl, rfl⟩

/-- Claim C7, amended: `Defer<Callable>` (with a constructed, hence
destroyed, object) compiles iff the action type is callable with zero
arguments; whether the call yields a value is irrelevant, the destructor
discarding any result.  The rejection is static (instantiation failure
of `m_callable();`), never a runtime error. -/
theorem C7_ctor_shape (τ : ActionTy) :
    deferInstantiates τ = true ↔ τ.callableZeroArgs = true := by
  simp [deferInstantiates, dtorBodyWellFormed, ctorBodyConstrains]

/-- Claim C8: an exception raised by a guard's action during destruction
never escapes to the caller.  The `noexcept` destructor turns it into
`std::terminate`: (1) whenever the held callable raises, the destructor's
outcome is `terminated` (the result type has no propagated-exception
outcome at all); (2) in a whole program, a raising guard ends the run
with `Control.terminated` on normal exit, and (3) also when an exception
is already in flight — the two errors are never merged and the cleanup
error is never propagated. -/
theorem C8_cleanup_error_fatal (σ : Type) (d : Defer σ) (s s' : σ)
    (e e1 e2 : Nat) (x : σ) (h : d.m_callable s = ActRes.exn e s') :
    Defer.dtor d s = DtorRes.terminated s'
    ∧ run (Stmt.declDefer (raiseGuard σ e1)) x = (Control.terminated, x)
    ∧ run (Stmt.seq (Stmt.declDefer (raiseGuard σ e1)) (Stmt.throwErr e2)) x
        = (Control.terminated, x) := by
  refine ⟨?_, rfl, rfl⟩
  simp [Defer.dtor, h]

/-- Witness for C8 at a concrete raising guard and state. -/
theorem C8_cleanup_error_fatal_witness :
    Defer.dtor (raiseGuard Nat 7) 0 = DtorRes.terminated 0
    ∧ run (Stmt.declDefer (raiseGuard Nat 1)) 5 = (Control.terminated, 5)
    ∧ run (Stmt.seq (Stmt.declDefer (raiseGuard Nat 1)) (Stmt.throwErr 2)) 5
        = (Control.terminated, 5) :=
  C8_cleanup_error_fatal Nat (raiseGuard Nat 7) 0 0 7 1 2 5 rfl

/-- Claim C9: unwind safety.  A guard that bumps a flag counter is
declared, then an exception is raised deeper in the scope (directly, or
inside a nested block): after unwinding the counter has been bumped
exactly once and the original exception `e` reaches the caller
unmodified. -/
theorem C9_unwind_safety (n e : Nat) :
    run (Stmt.seq (Stmt.declDefer incGuard) (Stmt.throwErr e)) n
        = (Control.thrown e, n + 1)
    ∧ run (Stmt.seq (Stmt.declDefer incGuard)
        (Stmt.block (Stmt.throwErr e))) n
        = (Control.thrown e, n + 1) :=
  ⟨rfl, rfl⟩

/-- Claim C10: the constructor taking a callable is `explicit` (line 54),
so it is usable for direct-initialization only: creating a guard by
implicit conversion or copy-initialization from a callable is statically
rejected. -/
theorem C10_explicit_ctor :
    ctorFromCallableUsable InitKind.direct = true
    ∧ ctorFromCallableUsable InitKind.copyInit = false :=
  ⟨rfl, rfl⟩

end CressDefer
